import Mathlib

/-!
Verification of the GPAW finite-difference relaxation / GPU-operator layer.

The C sources are shallowly embedded: `double` values become exact rationals
(`ℚ`), flat C arrays become total maps `ℤ → ℚ` indexed by the flat offset from
the array's base pointer, and the pointer arithmetic of the loops is carried
explicitly as integer offsets threaded through the loop state.
-/

/-- Finite-difference stencil descriptor (`struct bmgsstencil`): the number of
coefficients `ncoefs`, coefficient array `coefs`, flat neighbor offsets
`offsets`, interior extent `n[3]` and halo padding `j[3]` per axis
(from `c/bmgs/relax.c` usage). -/
structure bmgsstencil where
  ncoefs : ℕ
  coefs : List ℚ
  offsets : List ℤ
  n0 : ℕ
  n1 : ℕ
  n2 : ℕ
  j0 : ℕ
  j1 : ℕ
  j2 : ℕ

/-- The inner coefficient loop of `bmgs_relax`:
`for (c = 1; c < ncoefs; c++) x += a[offsets[c] + i2] * coefs[c]`,
accumulated left to right from `0.0`, with the read position `p` standing for
the current working-buffer pointer plus `i2`. -/
def stencilSum (s : bmgsstencil) (a : ℤ → ℚ) (p : ℤ) : ℚ :=
  (List.range' 1 (s.ncoefs - 1)).foldl
    (fun x c => x + a (s.offsets.getD c 0 + p) * s.coefs.getD c 0) 0

/-- Loop state of `bmgs_relax`: the working buffer `a`, the result field `b`,
and the current offsets of the `a`, `b` and `src` pointers from their bases
(the C code advances the pointers themselves). -/
structure RelaxState where
  a : ℤ → ℚ
  b : ℤ → ℚ
  aoff : ℤ
  boff : ℤ
  soff : ℤ

/-- One Gauss-Seidel point update at inner index `i2`:
`x = (src[i2] - Σ_{c≥1} a[offsets[c]+i2]*coefs[c]) * (1.0/coefs[0])`,
written into both `b[i2]` and `a[i2]`. -/
def gsPoint (s : bmgsstencil) (src : ℤ → ℚ) (st : RelaxState) (i2 : ℕ) :
    RelaxState :=
  let coef : ℚ := 1 / s.coefs.getD 0 0
  let x : ℚ := (src (st.soff + i2) - stencilSum s st.a (st.aoff + i2)) * coef
  { st with
    a := Function.update st.a (st.aoff + i2) x
    b := Function.update st.b (st.boff + i2) x }

/-- The innermost Gauss-Seidel loop: points `i2 = 0, 1, ..., k-1` in ascending
order. -/
def gsRow (s : bmgsstencil) (src : ℤ → ℚ) (st : RelaxState) : ℕ → RelaxState
  | 0 => st
  | k + 1 => gsPoint s src (gsRow s src st k) k

/-- Pointer advance after one innermost row:
`src += n[2]; b += n[2]; a += j[2] + n[2]`. -/
def rowAdvance (s : bmgsstencil) (st : RelaxState) : RelaxState :=
  { st with
    soff := st.soff + s.n2
    boff := st.boff + s.n2
    aoff := st.aoff + (s.j2 + s.n2 : ℕ) }

/-- The middle Gauss-Seidel loop: `k` full rows of `n[2]` points each, each
followed by the row pointer advance. -/
def gsPlane (s : bmgsstencil) (src : ℤ → ℚ) (st : RelaxState) : ℕ → RelaxState
  | 0 => st
  | k + 1 => rowAdvance s (gsRow s src (gsPlane s src st k) s.n2)

/-- Pointer advance after one middle-axis plane: `a += j[1]`. -/
def planeAdvance (s : bmgsstencil) (st : RelaxState) : RelaxState :=
  { st with aoff := st.aoff + (s.j1 : ℕ) }

/-- The outer Gauss-Seidel loop: `k` planes of `n[1]` rows each, each followed
by the plane pointer advance. -/
def gsVolume (s : bmgsstencil) (src : ℤ → ℚ) (st : RelaxState) : ℕ → RelaxState
  | 0 => st
  | k + 1 => planeAdvance s (gsPlane s src (gsVolume s src st k) s.n1)

/-- The Gauss-Seidel branch of `bmgs_relax` (`relax_method == 1`): the working
buffer starts at offset `(j[0]+j[1]+j[2])/2`, `b` and `src` at their bases;
returns the final `(a, b)`. -/
def bmgs_relax_gauss_seidel (s : bmgsstencil) (a b src : ℤ → ℚ) :
    (ℤ → ℚ) × (ℤ → ℚ) :=
  let st0 : RelaxState :=
    { a := a, b := b, aoff := ((s.j0 + s.j1 + s.j2) / 2 : ℕ), boff := 0,
      soff := 0 }
  let st := gsVolume s src st0 s.n0
  (st.a, st.b)

/-- One weighted-Jacobi point update at inner index `i2`:
`b[i2] = (1.0 - w) * b[i2] + w * (src[i2] - x)/coefs[0]` where `x` is the
stencil sum over the (unmodified) working buffer; `a` is not written. -/
def jacobiPoint (s : bmgsstencil) (src : ℤ → ℚ) (w : ℚ) (st : RelaxState)
    (i2 : ℕ) : RelaxState :=
  let x : ℚ := stencilSum s st.a (st.aoff + i2)
  { st with
    b := Function.update st.b (st.boff + i2)
      ((1 - w) * st.b (st.boff + i2) +
        w * (src (st.soff + i2) - x) / s.coefs.getD 0 0) }

/-- The innermost Jacobi loop: points `i2 = 0, ..., k-1` in ascending order. -/
def jacobiRow (s : bmgsstencil) (src : ℤ → ℚ) (w : ℚ) (st : RelaxState) :
    ℕ → RelaxState
  | 0 => st
  | k + 1 => jacobiPoint s src w (jacobiRow s src w st k) k

/-- The middle Jacobi loop, with the same pointer advances as Gauss-Seidel. -/
def jacobiPlane (s : bmgsstencil) (src : ℤ → ℚ) (w : ℚ) (st : RelaxState) :
    ℕ → RelaxState
  | 0 => st
  | k + 1 => rowAdvance s (jacobiRow s src w (jacobiPlane s src w st k) s.n2)

/-- The outer Jacobi loop. -/
def jacobiVolume (s : bmgsstencil) (src : ℤ → ℚ) (w : ℚ) (st : RelaxState) :
    ℕ → RelaxState
  | 0 => st
  | k + 1 =>
    planeAdvance s (jacobiPlane s src w (jacobiVolume s src w st k) s.n1)

/-- The weighted-Jacobi branch of `bmgs_relax` (`relax_method != 1`). -/
def bmgs_relax_jacobi (s : bmgsstencil) (a b src : ℤ → ℚ) (w : ℚ) :
    (ℤ → ℚ) × (ℤ → ℚ) :=
  let st0 : RelaxState :=
    { a := a, b := b, aoff := ((s.j0 + s.j1 + s.j2) / 2 : ℕ), boff := 0,
      soff := 0 }
  let st := jacobiVolume s src w st0 s.n0
  (st.a, st.b)

/-- `bmgs_relax` (`c/bmgs/relax.c`): dispatch on `relax_method`; the value `1`
selects weighted Gauss-Seidel, anything else weighted Jacobi. Returns the
final contents of `(a, b)`. -/
def bmgs_relax (relax_method : ℤ) (s : bmgsstencil) (a b src : ℤ → ℚ)
    (w : ℚ) : (ℤ → ℚ) × (ℤ → ℚ) :=
  if relax_method = 1 then bmgs_relax_gauss_seidel s a b src
  else bmgs_relax_jacobi s a b src w

/-! ### Specification-side Gauss-Seidel sweep

These definitions transcribe the specification's description of the sweep:
points visited in the fixed scan order (axis 0 outer, axis 1 middle, axis 2
inner, ascending), at each point `x = (src[p] - Σ_{c≥1} coef[c]*a[p+offset[c]])
/ coef[0]` written into both fields, with the working-buffer address given in
closed form by the stated start offset and per-row / per-plane advances. -/

/-- Initial working-buffer pointer offset `(pad[0]+pad[1]+pad[2])/2`. -/
def haloStart (s : bmgsstencil) : ℕ := (s.j0 + s.j1 + s.j2) / 2

/-- Closed-form working-buffer index of interior point `(i0,i1,i2)`: the start
offset, plus `pad[1] + n[1]*(pad[2]+n[2])` per outer step, plus
`pad[2]+n[2]` per middle step, plus `i2`. -/
def aIdx (s : bmgsstencil) (i0 i1 i2 : ℕ) : ℤ :=
  (haloStart s + i0 * (s.j1 + s.n1 * (s.j2 + s.n2)) + i1 * (s.j2 + s.n2)
    + i2 : ℕ)

/-- Closed-form index of interior point `(i0,i1,i2)` in the contiguous result
and source arrays. -/
def bIdx (s : bmgsstencil) (i0 i1 i2 : ℕ) : ℤ :=
  ((i0 * s.n1 + i1) * s.n2 + i2 : ℕ)

/-- Specification-side Gauss-Seidel update of one point: compute
`x = (src[p] - Σ_{c≥1} coef[c]*a[p+offset[c]]) / coef[0]` against the current
`a`, and write `x` into both fields. -/
def gsSpecStep (s : bmgsstencil) (src : ℤ → ℚ) (ab : (ℤ → ℚ) × (ℤ → ℚ))
    (p : ℕ × ℕ × ℕ) : (ℤ → ℚ) × (ℤ → ℚ) :=
  let x : ℚ := (src (bIdx s p.1 p.2.1 p.2.2)
    - stencilSum s ab.1 (aIdx s p.1 p.2.1 p.2.2)) / s.coefs.getD 0 0
  (Function.update ab.1 (aIdx s p.1 p.2.1 p.2.2) x,
   Function.update ab.2 (bIdx s p.1 p.2.1 p.2.2) x)

/-- The interior points in the claimed scan order: axis 0 outer, axis 1
middle, axis 2 inner, each ascending. -/
def lexPoints (s : bmgsstencil) : List (ℕ × ℕ × ℕ) :=
  (List.range s.n0).flatMap fun i0 =>
    (List.range s.n1).flatMap fun i1 =>
      (List.range s.n2).map fun i2 => (i0, i1, i2)

/-- Specification-side Gauss-Seidel sweep: fold the one-point update over the
interior points in scan order. -/
def gsSpecSweep (s : bmgsstencil) (a b src : ℤ → ℚ) :
    (ℤ → ℚ) × (ℤ → ℚ) :=
  (lexPoints s).foldl (gsSpecStep s src) (a, b)

lemma aIdx_add (s : bmgsstencil) (i0 i1 i2 : ℕ) :
    aIdx s i0 i1 0 + (i2 : ℤ) = aIdx s i0 i1 i2 := by
  unfold aIdx; push_cast; ring

lemma bIdx_add (s : bmgsstencil) (i0 i1 i2 : ℕ) :
    bIdx s i0 i1 0 + (i2 : ℤ) = bIdx s i0 i1 i2 := by
  unfold bIdx; push_cast; ring

lemma aIdx_row_advance (s : bmgsstencil) (i0 k : ℕ) :
    aIdx s i0 k 0 + ((s.j2 + s.n2 : ℕ) : ℤ) = aIdx s i0 (k + 1) 0 := by
  unfold aIdx; push_cast; ring

lemma bIdx_row_advance (s : bmgsstencil) (i0 k : ℕ) :
    bIdx s i0 k 0 + ((s.n2 : ℕ) : ℤ) = bIdx s i0 (k + 1) 0 := by
  unfold bIdx; push_cast; ring

lemma aIdx_plane_advance (s : bmgsstencil) (k : ℕ) :
    aIdx s k s.n1 0 + ((s.j1 : ℕ) : ℤ) = aIdx s (k + 1) 0 0 := by
  unfold aIdx; push_cast; ring

lemma bIdx_plane_advance (s : bmgsstencil) (k : ℕ) :
    bIdx s k s.n1 0 = bIdx s (k + 1) 0 0 := by
  unfold bIdx; push_cast; ring

lemma gsRow_offsets (s : bmgsstencil) (src : ℤ → ℚ) (st : RelaxState)
    (k : ℕ) :
    (gsRow s src st k).aoff = st.aoff ∧ (gsRow s src st k).boff = st.boff ∧
      (gsRow s src st k).soff = st.soff := by
  induction k with
  | zero => exact ⟨rfl, rfl, rfl⟩
  | succ k ih => simpa [gsRow, gsPoint] using ih

lemma gsRow_ab (s : bmgsstencil) (src : ℤ → ℚ) (i0 i1 : ℕ) (st : RelaxState)
    (ha : st.aoff = aIdx s i0 i1 0) (hb : st.boff = bIdx s i0 i1 0)
    (hs : st.soff = bIdx s i0 i1 0) (k : ℕ) :
    ((gsRow s src st k).a, (gsRow s src st k).b) =
      ((List.range k).map fun i2 => (i0, i1, i2)).foldl (gsSpecStep s src)
        (st.a, st.b) := by
  induction k with
  | zero => simp [gsRow]
  | succ k ih =>
    rw [List.range_succ, List.map_append, List.foldl_append, ← ih]
    simp only [List.map_cons, List.map_nil, List.foldl_cons, List.foldl_nil]
    have hoff := gsRow_offsets s src st k
    simp only [gsRow, gsPoint, gsSpecStep, hoff.1, hoff.2.1, hoff.2.2, ha,
      hb, hs, aIdx_add, bIdx_add, mul_one_div]

lemma gsPlane_offsets (s : bmgsstencil) (src : ℤ → ℚ) (i0 : ℕ)
    (st : RelaxState) (ha : st.aoff = aIdx s i0 0 0)
    (hb : st.boff = bIdx s i0 0 0) (hs : st.soff = bIdx s i0 0 0) (k : ℕ) :
    (gsPlane s src st k).aoff = aIdx s i0 k 0 ∧
      (gsPlane s src st k).boff = bIdx s i0 k 0 ∧
      (gsPlane s src st k).soff = bIdx s i0 k 0 := by
  induction k with
  | zero => exact ⟨ha, hb, hs⟩
  | succ k ih =>
    have hrow := gsRow_offsets s src (gsPlane s src st k) s.n2
    refine ⟨?_, ?_, ?_⟩ <;>
      simp only [gsPlane, rowAdvance, hrow.1, hrow.2.1, hrow.2.2, ih.1,
        ih.2.1, ih.2.2, aIdx_row_advance, bIdx_row_advance]

lemma gsPlane_ab (s : bmgsstencil) (src : ℤ → ℚ) (i0 : ℕ) (st : RelaxState)
    (ha : st.aoff = aIdx s i0 0 0) (hb : st.boff = bIdx s i0 0 0)
    (hs : st.soff = bIdx s i0 0 0) (k : ℕ) :
    ((gsPlane s src st k).a, (gsPlane s src st k).b) =
      ((List.range k).flatMap fun i1 =>
          (List.range s.n2).map fun i2 => (i0, i1, i2)).foldl
        (gsSpecStep s src) (st.a, st.b) := by
  induction k with
  | zero => simp [gsPlane]
  | succ k ih =>
    rw [List.range_succ, List.flatMap_append, List.foldl_append, ← ih,
      List.flatMap_singleton]
    have hoff := gsPlane_offsets s src i0 st ha hb hs k
    simp only [gsPlane, rowAdvance]
    exact gsRow_ab s src i0 k (gsPlane s src st k) hoff.1 hoff.2.1 hoff.2.2
      s.n2

lemma gsVolume_offsets (s : bmgsstencil) (src : ℤ → ℚ) (st : RelaxState)
    (ha : st.aoff = aIdx s 0 0 0) (hb : st.boff = bIdx s 0 0 0)
    (hs : st.soff = bIdx s 0 0 0) (k : ℕ) :
    (gsVolume s src st k).aoff = aIdx s k 0 0 ∧
      (gsVolume s src st k).boff = bIdx s k 0 0 ∧
      (gsVolume s src st k).soff = bIdx s k 0 0 := by
  induction k with
  | zero => exact ⟨ha, hb, hs⟩
  | succ k ih =>
    have hplane := gsPlane_offsets s src k (gsVolume s src st k) ih.1 ih.2.1
      ih.2.2 s.n1
    refine ⟨?_, ?_, ?_⟩ <;>
      simp only [gsVolume, planeAdvance, hplane.1, hplane.2.1, hplane.2.2,
        aIdx_plane_advance, bIdx_plane_advance]

lemma gsVolume_ab (s : bmgsstencil) (src : ℤ → ℚ) (st : RelaxState)
    (ha : st.aoff = aIdx s 0 0 0) (hb : st.boff = bIdx s 0 0 0)
    (hs : st.soff = bIdx s 0 0 0) (k : ℕ) :
    ((gsVolume s src st k).a, (gsVolume s src st k).b) =
      ((List.range k).flatMap fun i0 =>
          (List.range s.n1).flatMap fun i1 =>
            (List.range s.n2).map fun i2 => (i0, i1, i2)).foldl
        (gsSpecStep s src) (st.a, st.b) := by
  induction k with
  | zero => simp [gsVolume]
  | succ k ih =>
    rw [List.range_succ, List.flatMap_append, List.foldl_append, ← ih,
      List.flatMap_singleton]
    have hoff := gsVolume_offsets s src st ha hb hs k
    simp only [gsVolume, planeAdvance]
    exact gsPlane_ab s src k (gsVolume s src st k) hoff.1 hoff.2.1 hoff.2.2
      s.n1

lemma aIdx_zero (s : bmgsstencil) :
    (((s.j0 + s.j1 + s.j2) / 2 : ℕ) : ℤ) = aIdx s 0 0 0 := by
  simp [aIdx, haloStart]

lemma bIdx_zero (s : bmgsstencil) : (0 : ℤ) = bIdx s 0 0 0 := by
  simp [bIdx]

/-- C1: with a non-zero center coefficient, the Gauss-Seidel branch of
`bmgs_relax` visits the interior points in the fixed scan order (axis 0
outer, axis 1 middle, axis 2 inner, ascending), at each point computes
`x = (src[p] - Σ_{c≥1} coef[c]*a[p+offset[c]]) / coef[0]` from the current
(partly updated) buffer `a` and writes `x` into both `b[p]` and `a[p]`; the
working-buffer pointer starting at `(pad[0]+pad[1]+pad[2])/2` and advancing
by `pad[2]+n[2]` per innermost row plus `pad[1]` per middle-axis row realizes
exactly the closed-form addressing of the specification sweep. -/
theorem bmgs_relax_gauss_seidel_refines_spec (s : bmgsstencil)
    (a b src : ℤ → ℚ) (w : ℚ) (h : s.coefs.getD 0 0 ≠ 0) :
    bmgs_relax 1 s a b src w = gsSpecSweep s a b src := by
  have hvol := gsVolume_ab s src
    { a := a, b := b, aoff := ((s.j0 + s.j1 + s.j2) / 2 : ℕ), boff := 0,
      soff := 0 }
    (aIdx_zero s) (bIdx_zero s) (bIdx_zero s) s.n0
  rw [bmgs_relax, if_pos rfl]
  simpa [bmgs_relax_gauss_seidel, gsSpecSweep, lexPoints] using hvol

/-- Concrete 1D discrete-Laplacian stencil of the specification's golden
test: coefficients `[2, -1, -1]` (center, left, right), neighbor offsets
`[0, -1, 1]`, interior extent `n = [1,1,4]`, halo padding `j = [0,0,2]`
(one halo cell at each end of the single row). -/
def exStencil : bmgsstencil :=
  { ncoefs := 3, coefs := [2, -1, -1], offsets := [0, -1, 1],
    n0 := 1, n1 := 1, n2 := 4, j0 := 0, j1 := 0, j2 := 2 }

/-- All-zero field: zero initial data and zero Dirichlet halo. -/
def exZero : ℤ → ℚ := fun _ => 0

/-- Source field `src = [1,1,1,1]` on the four interior points. -/
def exSrc : ℤ → ℚ := fun p => if 0 ≤ p ∧ p < 4 then 1 else 0

/-- Witness for C1: the refinement theorem applied to the concrete
Laplacian stencil, whose center coefficient `2` is non-zero. -/
theorem bmgs_relax_gauss_seidel_refines_spec_witness :
    exStencil.coefs.getD 0 0 ≠ 0 ∧
      bmgs_relax 1 exStencil exZero exZero exSrc 1 =
        gsSpecSweep exStencil exZero exZero exSrc :=
  ⟨by norm_num [exStencil],
   bmgs_relax_gauss_seidel_refines_spec exStencil exZero exZero exSrc 1
     (by norm_num [exStencil])⟩

/-- C2: one Gauss-Seidel sweep of the concrete Laplacian scenario (stencil
`[2,-1,-1]`, `n=[1,1,4]`, zero Dirichlet halo, `src=[1,1,1,1]`) produces
`b = [1/2, 3/4, 7/8, 15/16]`, each point reading the already-updated value
of its left neighbor, and writes the same values into the interior cells
`1..4` of the working buffer `a`. -/
theorem relax_concrete_gauss_seidel_values :
    ((bmgs_relax 1 exStencil exZero exZero exSrc 1).2 0 = 1/2 ∧
     (bmgs_relax 1 exStencil exZero exZero exSrc 1).2 1 = 3/4 ∧
     (bmgs_relax 1 exStencil exZero exZero exSrc 1).2 2 = 7/8 ∧
     (bmgs_relax 1 exStencil exZero exZero exSrc 1).2 3 = 15/16) ∧
    ((bmgs_relax 1 exStencil exZero exZero exSrc 1).1 1 = 1/2 ∧
     (bmgs_relax 1 exStencil exZero exZero exSrc 1).1 2 = 3/4 ∧
     (bmgs_relax 1 exStencil exZero exZero exSrc 1).1 3 = 7/8 ∧
     (bmgs_relax 1 exStencil exZero exZero exSrc 1).1 4 = 15/16) := by
  norm_num [bmgs_relax, bmgs_relax_gauss_seidel, gsVolume, gsPlane, gsRow,
    gsPoint, planeAdvance, rowAdvance, stencilSum, exStencil, exZero, exSrc,
    Function.update, List.range']

lemma jacobiRow_a (s : bmgsstencil) (src : ℤ → ℚ) (w : ℚ) (st : RelaxState)
    (k : ℕ) : (jacobiRow s src w st k).a = st.a := by
  induction k with
  | zero => rfl
  | succ k ih => simpa [jacobiRow, jacobiPoint] using ih

lemma jacobiPlane_a (s : bmgsstencil) (src : ℤ → ℚ) (w : ℚ)
    (st : RelaxState) (k : ℕ) : (jacobiPlane s src w st k).a = st.a := by
  induction k with
  | zero => rfl
  | succ k ih =>
    simpa [jacobiPlane, rowAdvance, jacobiRow_a] using ih

lemma jacobiVolume_a (s : bmgsstencil) (src : ℤ → ℚ) (w : ℚ)
    (st : RelaxState) (k : ℕ) : (jacobiVolume s src w st k).a = st.a := by
  induction k with
  | zero => rfl
  | succ k ih =>
    simpa [jacobiVolume, planeAdvance, jacobiPlane_a] using ih

lemma jacobiPoint_w0 (s : bmgsstencil) (src : ℤ → ℚ) (st : RelaxState)
    (i2 : ℕ) : jacobiPoint s src 0 st i2 = st := by
  simp [jacobiPoint, Function.update_eq_self]

lemma jacobiRow_w0 (s : bmgsstencil) (src : ℤ → ℚ) (st : RelaxState)
    (k : ℕ) : jacobiRow s src 0 st k = st := by
  induction k with
  | zero => rfl
  | succ k ih =>
    show jacobiPoint s src 0 (jacobiRow s src 0 st k) k = st
    rw [ih, jacobiPoint_w0]

lemma jacobiPlane_w0_b (s : bmgsstencil) (src : ℤ → ℚ) (st : RelaxState)
    (k : ℕ) : (jacobiPlane s src 0 st k).b = st.b := by
  induction k with
  | zero => rfl
  | succ k ih =>
    simpa [jacobiPlane, rowAdvance, jacobiRow_w0] using ih

lemma jacobiVolume_w0_b (s : bmgsstencil) (src : ℤ → ℚ) (st : RelaxState)
    (k : ℕ) : (jacobiVolume s src 0 st k).b = st.b := by
  induction k with
  | zero => rfl
  | succ k ih =>
    simpa [jacobiVolume, planeAdvance, jacobiPlane_w0_b] using ih

/-- C5: a Jacobi sweep (`relax_method != 1`) with weight `w = 0` leaves the
result field unchanged: the update
`b[p] = (1-w)*b[p] + w*(src[p]-Σ)/coef[0]` degenerates to the identity. -/
theorem jacobi_weight_zero_is_identity (m : ℤ) (hm : m ≠ 1)
    (s : bmgsstencil) (a b src : ℤ → ℚ) (h : s.coefs.getD 0 0 ≠ 0) :
    (bmgs_relax m s a b src 0).2 = b := by
  rw [bmgs_relax, if_neg hm]
  simpa [bmgs_relax_jacobi] using
    jacobiVolume_w0_b s src
      { a := a, b := b, aoff := ((s.j0 + s.j1 + s.j2) / 2 : ℕ), boff := 0,
        soff := 0 } s.n0

/-- Witness for C5: Jacobi with `relax_method = 0` and `w = 0` on the
concrete Laplacian scenario returns the result field untouched. -/
theorem jacobi_weight_zero_is_identity_witness :
    (0 : ℤ) ≠ 1 ∧ exStencil.coefs.getD 0 0 ≠ 0 ∧
      (bmgs_relax 0 exStencil exZero exSrc exSrc 0).2 = exSrc :=
  ⟨by decide, by norm_num [exStencil],
   jacobi_weight_zero_is_identity 0 (by decide) exStencil exZero exSrc exSrc
     (by norm_num [exStencil])⟩

/-- C6: a Jacobi sweep (`relax_method != 1`) never writes the working buffer
`a`: every element of `a`, interior and halo alike, is unchanged, so all
updates of one sweep read only pre-sweep values of `a`. -/
theorem jacobi_never_writes_working_buffer (m : ℤ) (hm : m ≠ 1)
    (s : bmgsstencil) (a b src : ℤ → ℚ) (w : ℚ) :
    (bmgs_relax m s a b src w).1 = a := by
  rw [bmgs_relax, if_neg hm]
  simpa [bmgs_relax_jacobi] using
    jacobiVolume_a s src w
      { a := a, b := b, aoff := ((s.j0 + s.j1 + s.j2) / 2 : ℕ), boff := 0,
        soff := 0 } s.n0

/-- Witness for C6: the Jacobi sweep with `relax_method = 2` on the concrete
scenario returns the working buffer exactly as given. -/
theorem jacobi_never_writes_working_buffer_witness :
    (2 : ℤ) ≠ 1 ∧ (bmgs_relax 2 exStencil exZero exSrc exSrc 1).1 = exZero :=
  ⟨by decide,
   jacobi_never_writes_working_buffer 2 (by decide) exStencil exZero exSrc
     exSrc 1⟩

/-- C7: the Gauss-Seidel branch of `bmgs_relax` ignores the weight argument
entirely: for any two weights the result field and the final working buffer
coincide. -/
theorem gauss_seidel_ignores_weight (s : bmgsstencil) (a b src : ℤ → ℚ)
    (w1 w2 : ℚ) :
    bmgs_relax 1 s a b src w1 = bmgs_relax 1 s a b src w2 := by
  rw [bmgs_relax, if_pos rfl, bmgs_relax, if_pos rfl]

/-- C10: `bmgs_relax` dispatches on `relax_method` with exactly one
distinguished value: `1` selects Gauss-Seidel and every other integer
silently performs the weighted Jacobi sweep; no value is rejected. -/
theorem bmgs_relax_dispatch (m : ℤ) (s : bmgsstencil) (a b src : ℤ → ℚ)
    (w : ℚ) :
    (m = 1 → bmgs_relax m s a b src w = bmgs_relax_gauss_seidel s a b src) ∧
    (m ≠ 1 → bmgs_relax m s a b src w = bmgs_relax_jacobi s a b src w) := by
  constructor
  · intro hm; rw [bmgs_relax, if_pos hm]
  · intro hm; rw [bmgs_relax, if_neg hm]

/-- Witness for C10: dispatch evaluated at `relax_method = 1` (Gauss-Seidel)
and at the undistinguished value `relax_method = -7` (Jacobi). -/
theorem bmgs_relax_dispatch_witness :
    bmgs_relax 1 exStencil exZero exZero exSrc 1 =
      bmgs_relax_gauss_seidel exStencil exZero exZero exSrc ∧
    bmgs_relax (-7) exStencil exZero exZero exSrc 1 =
      bmgs_relax_jacobi exStencil exZero exZero exSrc 1 :=
  ⟨(bmgs_relax_dispatch 1 exStencil exZero exZero exSrc 1).1 rfl,
   (bmgs_relax_dispatch (-7) exStencil exZero exZero exSrc 1).2 (by decide)⟩

/-! ### GPU operator layer (`c/gpu/operators.c`, `c/cuda/gpaw-cuda-common.h`)

The boundary descriptor fields that the overlap decision and the buffer
allocator read are embedded; the device kernels themselves stay abstract. -/

/-- Boundary-role flag `GPAW_BOUNDARY_X0 = 1<<3`. -/
def GPAW_BOUNDARY_X0 : ℕ := 2 ^ 3

/-- Boundary-role flag `GPAW_BOUNDARY_X1 = 1<<4`. -/
def GPAW_BOUNDARY_X1 : ℕ := 2 ^ 4

/-- Boundary-role flag `GPAW_BOUNDARY_Y0 = 1<<5`. -/
def GPAW_BOUNDARY_Y0 : ℕ := 2 ^ 5

/-- Boundary-role flag `GPAW_BOUNDARY_Y1 = 1<<6`. -/
def GPAW_BOUNDARY_Y1 : ℕ := 2 ^ 6

/-- Boundary-role flag `GPAW_BOUNDARY_Z0 = 1<<7`. -/
def GPAW_BOUNDARY_Z0 : ℕ := 2 ^ 7

/-- Boundary-role flag `GPAW_BOUNDARY_Z1 = 1<<8`. -/
def GPAW_BOUNDARY_Z1 : ℕ := 2 ^ 8

/-- `GPAW_CUDA_ASYNC_SIZE = 8*1024` bytes. -/
def GPAW_CUDA_ASYNC_SIZE : ℕ := 8 * 1024

/-- The byte threshold of the overlap decision
(`GPAW_CUDA_OVERLAP_SIZE = GPAW_CUDA_ASYNC_SIZE`). -/
def GPAW_CUDA_OVERLAP_SIZE : ℕ := GPAW_CUDA_ASYNC_SIZE

/-- `sizeof(double)` on the targeted platforms. -/
def sizeof_double : ℕ := 8

/-- Modelled from the spec: the `DO_NOTHING` sentinel of the boundary
descriptor (declared in `bc.h`, which is not part of this tree) marks a side
without a real neighbor; only the comparison `sendproc[i][j] != DO_NOTHING`
is ever used, so the sentinel's concrete value is immaterial. -/
def DO_NOTHING : ℤ := -1

/-- The fields of `boundary_conditions` read by the GPU operator layer:
element width `ndouble`, padded extent `size2`, and per-axis/per-direction
neighbor ranks and message sizes. -/
structure boundary_conditions where
  ndouble : ℕ
  size2 : Fin 3 → ℕ
  sendproc : Fin 3 → Fin 2 → ℤ
  nsend : Fin 3 → Fin 2 → ℕ
  nrecv : Fin 3 → Fin 2 → ℕ

/-- The six-flag boundary-role bitmask accumulated by
`_operator_relax_cuda_gpu` / `_operator_apply_cuda_gpu`: one flag per side
whose `sendproc` is not `DO_NOTHING`. -/
def boundary_mask (bc : boundary_conditions) : ℕ :=
  (if bc.sendproc 0 0 ≠ DO_NOTHING then GPAW_BOUNDARY_X0 else 0) |||
  (if bc.sendproc 0 1 ≠ DO_NOTHING then GPAW_BOUNDARY_X1 else 0) |||
  (if bc.sendproc 1 0 ≠ DO_NOTHING then GPAW_BOUNDARY_Y0 else 0) |||
  (if bc.sendproc 1 1 ≠ DO_NOTHING then GPAW_BOUNDARY_Y1 else 0) |||
  (if bc.sendproc 2 0 ≠ DO_NOTHING then GPAW_BOUNDARY_Z0 else 0) |||
  (if bc.sendproc 2 1 ≠ DO_NOTHING then GPAW_BOUNDARY_Z1 else 0)

/-- The halo-exchange byte count `nsendrecvs`: sum over the six directions of
`MAX(nsend[i][j], nrecv[i][j]) * blocks * sizeof(double)`. -/
def nsendrecvs (bc : boundary_conditions) (blocks : ℕ) : ℕ :=
  (List.finRange 3).foldl (fun acc i =>
    (List.finRange 2).foldl (fun acc j =>
      acc + max (bc.nsend i j) (bc.nrecv i j) * blocks * sizeof_double) acc) 0

/-- The overlap decision `cuda_overlap` shared by the GPU relax and apply
operations: the result of `bmgs_fd_boundary_test` (device code outside this
tree, abstracted as the predicate `bt` of the boundary-role bitmask and
`ndouble`; true when not every grid point is boundary-adjacent), masked with
the strict byte-count test `nsendrecvs > GPU_OVERLAP_SIZE`. -/
def cuda_overlap (bt : ℕ → ℕ → Bool) (bc : boundary_conditions)
    (blocks : ℕ) : Bool :=
  bt (boundary_mask bc) bc.ndouble &&
    decide (nsendrecvs bc blocks > GPAW_CUDA_OVERLAP_SIZE)

/-- The two execution paths of the GPU operations: the communication-hiding
overlapped path and the sequential fallback path. -/
inductive GpuPath where
  | overlapped
  | fallback

/-- Path taken by `_operator_relax_cuda_gpu` (which uses `blocks = 1`). -/
def operator_relax_path (bt : ℕ → ℕ → Bool) (bc : boundary_conditions) :
    GpuPath :=
  if cuda_overlap bt bc 1 then GpuPath.overlapped else GpuPath.fallback

/-- Path taken by `_operator_apply_cuda_gpu` for a given block count. -/
def operator_apply_path (bt : ℕ → ℕ → Bool) (bc : boundary_conditions)
    (blocks : ℕ) : GpuPath :=
  if cuda_overlap bt bc blocks then GpuPath.overlapped else GpuPath.fallback

lemma gpu_path_if_iff (c : Bool) (P : Prop) (hc : c = true ↔ P) :
    (if c then GpuPath.overlapped else GpuPath.fallback)
      = GpuPath.overlapped ↔ P := by
  cases c <;> simp_all

/-- C4: in both the GPU relax and the GPU apply operations, the overlapped
path is taken exactly when the boundary test on the stencil descriptor and
the six-flag boundary-role bitmask succeeds AND the halo-exchange byte count
`Σ max(nsend,nrecv)*blocks*sizeof(double)` strictly exceeds the fixed
threshold; otherwise the sequential fallback runs. -/
theorem gpu_overlap_path_iff (bt : ℕ → ℕ → Bool) (bc : boundary_conditions)
    (blocks : ℕ) :
    (operator_relax_path bt bc = GpuPath.overlapped ↔
      bt (boundary_mask bc) bc.ndouble = true ∧
        nsendrecvs bc 1 > GPAW_CUDA_OVERLAP_SIZE) ∧
    (operator_apply_path bt bc blocks = GpuPath.overlapped ↔
      bt (boundary_mask bc) bc.ndouble = true ∧
        nsendrecvs bc blocks > GPAW_CUDA_OVERLAP_SIZE) := by
  constructor
  · exact gpu_path_if_iff _ _ (by simp [cuda_overlap])
  · exact gpu_path_if_iff _ _ (by simp [cuda_overlap])

/-- `OPERATOR_NSTREAMS = 2`. -/
def OPERATOR_NSTREAMS : ℕ := 2

/-- The process-wide GPU operator globals: the recorded scratch-buffer
capacity `operator_buf_size`, the number of created streams
`operator_streams`, and the reference count `operator_init_count`. -/
structure OperatorGlobals where
  buf_size : ℕ
  streams : ℕ
  init_count : ℕ

/-- `operator_init_buffers_cuda()`: unset buffer, reset sizes, streams and
reference count. -/
def operator_init_buffers_cuda : OperatorGlobals :=
  { buf_size := 0, streams := 0, init_count := 0 }

/-- `operator_init_cuda`: register one more operator object by incrementing
the reference count. -/
def operator_init_cuda (st : OperatorGlobals) : OperatorGlobals :=
  { st with init_count := st.init_count + 1 }

/-- The requested scratch size of `operator_alloc_buffers`:
`ng2 = ndouble * size2[0] * size2[1] * size2[2] * blocks`. -/
def alloc_request (bc : boundary_conditions) (blocks : ℕ) : ℕ :=
  bc.ndouble * bc.size2 0 * bc.size2 1 * bc.size2 2 * blocks

/-- `operator_alloc_buffers`: reallocate the device buffer only when the
request strictly exceeds the recorded capacity, and create the streams and
events on first use. -/
def operator_alloc_buffers (st : OperatorGlobals) (bc : boundary_conditions)
    (blocks : ℕ) : OperatorGlobals :=
  let ng2 := alloc_request bc blocks
  let st1 := if ng2 > st.buf_size then { st with buf_size := ng2 } else st
  if st1.streams = 0 then { st1 with streams := OPERATOR_NSTREAMS } else st1

/-- `operator_dealloc_cuda(force)`: with `force`, pretend one user is left;
if exactly one user is left, free the buffer, destroy streams and events and
reset everything, else just drop one reference. The boolean records whether
the release branch ran. -/
def operator_dealloc_cuda (st : OperatorGlobals) (force : Bool) :
    OperatorGlobals × Bool :=
  let st1 := if force then { st with init_count := 1 } else st
  if st1.init_count = 1 then (operator_init_buffers_cuda, true)
  else if 0 < st1.init_count then
    ({ st1 with init_count := st1.init_count - 1 }, false)
  else (st1, false)

/-- A sequence of `operator_alloc_buffers` calls. -/
def runAllocs (st : OperatorGlobals)
    (reqs : List (boundary_conditions × ℕ)) : OperatorGlobals :=
  reqs.foldl (fun acc r => operator_alloc_buffers acc r.1 r.2) st

lemma operator_alloc_buffers_buf_size (st : OperatorGlobals)
    (bc : boundary_conditions) (blocks : ℕ) :
    (operator_alloc_buffers st bc blocks).buf_size =
      max st.buf_size (alloc_request bc blocks) := by
  simp only [operator_alloc_buffers]
  split_ifs <;> simp_all <;> omega

lemma operator_alloc_buffers_streams (st : OperatorGlobals)
    (bc : boundary_conditions) (blocks : ℕ) :
    (operator_alloc_buffers st bc blocks).streams ≠ 0 := by
  simp only [operator_alloc_buffers, OPERATOR_NSTREAMS]
  split_ifs <;> simp_all

lemma runAllocs_le (st : OperatorGlobals)
    (reqs : List (boundary_conditions × ℕ)) :
    st.buf_size ≤ (runAllocs st reqs).buf_size := by
  induction reqs generalizing st with
  | nil => exact le_refl _
  | cons r rs ih =>
    calc st.buf_size
        ≤ (operator_alloc_buffers st r.1 r.2).buf_size := by
          rw [operator_alloc_buffers_buf_size]; exact le_max_left _ _
      _ ≤ (runAllocs (operator_alloc_buffers st r.1 r.2) rs).buf_size := ih _
      _ = (runAllocs st (r :: rs)).buf_size := rfl

lemma runAllocs_mem_le (st : OperatorGlobals)
    (reqs : List (boundary_conditions × ℕ)) :
    ∀ r ∈ reqs, alloc_request r.1 r.2 ≤ (runAllocs st reqs).buf_size := by
  induction reqs generalizing st with
  | nil => intro r hr; cases hr
  | cons q rs ih =>
    intro r hr
    rcases List.mem_cons.mp hr with h | h
    · subst h
      calc alloc_request r.1 r.2
          ≤ (operator_alloc_buffers st r.1 r.2).buf_size := by
            rw [operator_alloc_buffers_buf_size]; exact le_max_right _ _
        _ ≤ (runAllocs (operator_alloc_buffers st r.1 r.2) rs).buf_size :=
            runAllocs_le _ _
    · exact ih _ r h

/-- C8: the scratch buffer is lazily grown and never shrunk — one
`operator_alloc_buffers` call records exactly `max` of old capacity and
request, so across any call sequence the capacity is non-decreasing and at
least every requested size — and the release branch of
`operator_dealloc_cuda` (buffer free, stream/event destruction, reset) runs
exactly when the call is forced or the reference count is at its last user. -/
theorem operator_buffers_monotone_refcounted (st : OperatorGlobals)
    (bc : boundary_conditions) (blocks : ℕ)
    (reqs : List (boundary_conditions × ℕ)) (force : Bool) :
    (operator_alloc_buffers st bc blocks).buf_size =
      max st.buf_size (alloc_request bc blocks) ∧
    st.buf_size ≤ (runAllocs st reqs).buf_size ∧
    (∀ r ∈ reqs, alloc_request r.1 r.2 ≤ (runAllocs st reqs).buf_size) ∧
    ((operator_dealloc_cuda st force).2 = true ↔
      force = true ∨ st.init_count = 1) := by
  refine ⟨operator_alloc_buffers_buf_size st bc blocks, runAllocs_le st reqs,
    runAllocs_mem_le st reqs, ?_⟩
  simp only [operator_dealloc_cuda]
  cases force <;> split_ifs <;> simp_all

/-- Concrete boundary descriptor for witnesses: one real neighbor on each
side of axis 0 exchanging 16 doubles, a padded extent of 6 per axis, real
scalar data. -/
def exBC : boundary_conditions :=
  { ndouble := 1
    size2 := fun _ => 6
    sendproc := fun i _ => if i = 0 then 7 else DO_NOTHING
    nsend := fun i _ => if i = 0 then 16 else 0
    nrecv := fun i _ => if i = 0 then 16 else 0 }

/-- Witness for C8: the theorem applied to the reset state, one concrete
request list, and a forced deallocation. -/
theorem operator_buffers_monotone_refcounted_witness :
    (operator_alloc_buffers operator_init_buffers_cuda exBC 2).buf_size =
      max operator_init_buffers_cuda.buf_size (alloc_request exBC 2) ∧
    alloc_request exBC 2 ≤
      (runAllocs operator_init_buffers_cuda [(exBC, 2)]).buf_size ∧
    ((operator_dealloc_cuda operator_init_buffers_cuda true).2 = true ↔
      true = true ∨ operator_init_buffers_cuda.init_count = 1) :=
  ⟨(operator_buffers_monotone_refcounted operator_init_buffers_cuda exBC 2
      [(exBC, 2)] true).1,
   (operator_buffers_monotone_refcounted operator_init_buffers_cuda exBC 2
      [(exBC, 2)] true).2.2.1 (exBC, 2) (by simp),
   (operator_buffers_monotone_refcounted operator_init_buffers_cuda exBC 2
      [(exBC, 2)] true).2.2.2⟩

/-! ### ELPA wrapper layer (`c/elpa.c`)

The ELPA eigensolver itself is an external library: its status constant
`ELPA_OK` and message table `elpa_strerr` are universally quantified
parameters, and each wrapper is modelled as a function of the status code the
library call hands back. Raising a catchable Python `RuntimeError` via
`PyErr_SetString` + `return NULL` is modelled as `Except.error` carrying the
message; returning `Py_RETURN_NONE` as `Except.ok ()`. -/

/-- `checkerr`: raise a `RuntimeError` with the library's message
`elpa_strerr(err)` when `err != ELPA_OK`, else return `None`. -/
def checkerr (elpaOK : ℤ) (elpa_strerr : ℤ → String) (err : ℤ) :
    Except String Unit :=
  if err ≠ elpaOK then Except.error (elpa_strerr err) else Except.ok ()

/-- `pyelpa_set`: forwards the status of `elpa_set` to `checkerr`. -/
def pyelpa_set (elpaOK : ℤ) (elpa_strerr : ℤ → String) (err : ℤ) :
    Except String Unit :=
  checkerr elpaOK elpa_strerr err

/-- `pyelpa_allocate`: forwards the status of `elpa_allocate`. -/
def pyelpa_allocate (elpaOK : ℤ) (elpa_strerr : ℤ → String) (err : ℤ) :
    Except String Unit :=
  checkerr elpaOK elpa_strerr err

/-- `pyelpa_setup`: forwards the status of `elpa_setup`. -/
def pyelpa_setup (elpaOK : ℤ) (elpa_strerr : ℤ → String) (err : ℤ) :
    Except String Unit :=
  checkerr elpaOK elpa_strerr err

/-- `pyelpa_set_comm`: forwards the status of setting `mpi_comm_parent`. -/
def pyelpa_set_comm (elpaOK : ℤ) (elpa_strerr : ℤ → String) (err : ℤ) :
    Except String Unit :=
  checkerr elpaOK elpa_strerr err

/-- `pyelpa_diagonalize`: forwards the status of `elpa_eigenvectors`. -/
def pyelpa_diagonalize (elpaOK : ℤ) (elpa_strerr : ℤ → String) (err : ℤ) :
    Except String Unit :=
  checkerr elpaOK elpa_strerr err

/-- `pyelpa_general_diagonalize`: forwards the status of
`elpa_generalized_eigenvectors` (same `checkerr` call on either scalar
type). -/
def pyelpa_general_diagonalize (elpaOK : ℤ) (elpa_strerr : ℤ → String)
    (err : ℤ) : Except String Unit :=
  checkerr elpaOK elpa_strerr err

/-- `pyelpa_hermitian_multiply`: the library call is commented out in the
source and the status passed to `checkerr` is hardcoded to `1`. -/
def pyelpa_hermitian_multiply (elpaOK : ℤ) (elpa_strerr : ℤ → String) :
    Except String Unit :=
  checkerr elpaOK elpa_strerr 1

/-- C9: every status-checking ELPA wrapper raises a catchable error carrying
`elpa_strerr` of the status it passes to `checkerr` exactly when that status
differs from `ELPA_OK`, and returns `None` exactly when it equals
`ELPA_OK`. -/
theorem elpa_wrappers_raise_iff (elpaOK : ℤ) (strerr : ℤ → String)
    (err : ℤ) :
    (pyelpa_set elpaOK strerr err = Except.error (strerr err) ↔
      err ≠ elpaOK) ∧
    (pyelpa_set elpaOK strerr err = Except.ok () ↔ err = elpaOK) ∧
    (pyelpa_allocate elpaOK strerr err = Except.error (strerr err) ↔
      err ≠ elpaOK) ∧
    (pyelpa_allocate elpaOK strerr err = Except.ok () ↔ err = elpaOK) ∧
    (pyelpa_setup elpaOK strerr err = Except.error (strerr err) ↔
      err ≠ elpaOK) ∧
    (pyelpa_setup elpaOK strerr err = Except.ok () ↔ err = elpaOK) ∧
    (pyelpa_set_comm elpaOK strerr err = Except.error (strerr err) ↔
      err ≠ elpaOK) ∧
    (pyelpa_set_comm elpaOK strerr err = Except.ok () ↔ err = elpaOK) ∧
    (pyelpa_diagonalize elpaOK strerr err = Except.error (strerr err) ↔
      err ≠ elpaOK) ∧
    (pyelpa_diagonalize elpaOK strerr err = Except.ok () ↔ err = elpaOK) ∧
    (pyelpa_general_diagonalize elpaOK strerr err
        = Except.error (strerr err) ↔ err ≠ elpaOK) ∧
    (pyelpa_general_diagonalize elpaOK strerr err = Except.ok () ↔
      err = elpaOK) ∧
    (pyelpa_hermitian_multiply elpaOK strerr = Except.error (strerr 1) ↔
      (1 : ℤ) ≠ elpaOK) ∧
    (pyelpa_hermitian_multiply elpaOK strerr = Except.ok () ↔
      (1 : ℤ) = elpaOK) := by
  by_cases h : err = elpaOK <;> by_cases h1 : (1 : ℤ) = elpaOK <;>
    simp [pyelpa_set, pyelpa_allocate, pyelpa_setup, pyelpa_set_comm,
      pyelpa_diagonalize, pyelpa_general_diagonalize,
      pyelpa_hermitian_multiply, checkerr, h, h1]
